import Mathlib

/-!
Verification of the audio-assembly and dependency-installer core of the
Native Speech Generation add-on.

The Python sources embedded here are:
* `parse_audio_mime_type`, `convert_to_wav`, `merge_wav_files` and
  `_stream_and_save_audio` from
  `addon/globalPlugins/nativeSpeechGeneration.py` (the
  `addon/globalPlugins/NativeSpeechGeneration/__init__.py` copies are
  line-for-line identical up to logging and a cancellation flag);
* the forced-reinstall paths `check_and_install_dependencies.do_work`
  (`addon/globalPlugins/lib_updater.py`) and
  `NativeSpeechSettingsPanel.onReinstall`
  (`addon/globalPlugins/NativeSpeechGeneration/__init__.py`);
* the progress reporting of `download_and_extract`
  (`addon/globalPlugins/lib_updater.py`).

Byte strings are modelled as `List Nat` (each entry one byte), Python `int`
as `Int`, and Python strings as `List Char` (with `String` wrappers at the
interface).  Python-level exceptions are modelled as `Option`/`Except`
results.
-/

set_option autoImplicit false

namespace NSG

/-! ## Python string primitives

These model the exact CPython semantics of the string operations used by
`parse_audio_mime_type`, restricted to ASCII data (the add-on only ever
feeds it ASCII content-type strings; Unicode case folding and Unicode
digits are outside the model).
-/

/-- Whitespace characters stripped by Python `str.strip()` (ASCII part:
space, tab, newline, carriage return, vertical tab, form feed). -/
def isPySpace (c : Char) : Bool :=
  c.toNat = 32 || c.toNat = 9 || c.toNat = 10 || c.toNat = 13 ||
  c.toNat = 11 || c.toNat = 12

/-- Python `str.strip()`: drop leading and trailing whitespace. -/
def pyStrip (cs : List Char) : List Char :=
  ((cs.dropWhile isPySpace).reverse.dropWhile isPySpace).reverse

/-- ASCII lower-casing of one character, as Python `str.lower()` does on
ASCII input. -/
def pyLowerChar (c : Char) : Char :=
  if 65 ≤ c.toNat ∧ c.toNat ≤ 90 then Char.ofNat (c.toNat + 32) else c

/-- Python `str.lower()` on ASCII input. -/
def pyLower (cs : List Char) : List Char :=
  cs.map pyLowerChar

/-- Helper for `pySplit`: accumulates the current field (reversed). -/
def pySplitAux (sep : Char) : List Char → List Char → List (List Char)
  | [], acc => [acc.reverse]
  | c :: rest, acc =>
    if c = sep then acc.reverse :: pySplitAux sep rest []
    else pySplitAux sep rest (c :: acc)

/-- Python `s.split(sep)` for a one-character separator: split at every
occurrence, keeping empty fields. -/
def pySplit (sep : Char) (cs : List Char) : List (List Char) :=
  pySplitAux sep cs []

/-- Everything after the first occurrence of `c`, i.e. Python
`s.split(c, 1)[1]` (callers guarantee `c` occurs). -/
def afterFirst (c : Char) : List Char → List Char
  | [] => []
  | x :: rest => if x = c then rest else afterFirst c rest

/-- Decimal digit test (Python `int` only accepts these in the model). -/
def isDigitCh (c : Char) : Bool :=
  48 ≤ c.toNat && c.toNat ≤ 57

/-- Tail of a Python integer literal after its first digit: digits with
single underscores allowed strictly between digits. -/
def numTail : List Char → Bool
  | [] => true
  | c :: rest =>
    if c = '_' then
      match rest with
      | [] => false
      | d :: rest2 => isDigitCh d && numTail rest2
    else isDigitCh c && numTail rest

/-- A valid unsigned Python integer literal body: nonempty, starts with a
digit, underscores only between digits. -/
def numValid : List Char → Bool
  | [] => false
  | c :: rest => isDigitCh c && numTail rest

/-- Numeric value of a digit character. -/
def digitVal (c : Char) : Nat :=
  c.toNat - 48

/-- Value of a digit-and-underscore literal body (underscores skipped). -/
def digitsValue (cs : List Char) : Nat :=
  cs.foldl (fun acc c => if c = '_' then acc else acc * 10 + digitVal c) 0

/-- Python `int(s)` on an ASCII string: strip whitespace, optional sign,
then a digit sequence with underscores between digits; `none` models the
`ValueError` the source code suppresses. -/
def pyInt? (cs : List Char) : Option Int :=
  match pyStrip cs with
  | [] => none
  | c :: rest =>
    if c = '+' then
      if numValid rest then some (digitsValue rest : Int) else none
    else if c = '-' then
      if numValid rest then some (-(digitsValue rest : Int)) else none
    else if numValid (c :: rest) then some (digitsValue (c :: rest) : Int)
    else none

/-- Substring test, Python `sub in hay`. -/
def containsSub (hay sub : List Char) : Bool :=
  match hay with
  | [] => sub.isEmpty
  | _ :: t => sub.isPrefixOf hay || containsSub t sub

/-! ## `parse_audio_mime_type` -/

/-- Result of `parse_audio_mime_type`: the dict
`{"bits_per_sample": ..., "rate": ...}`. -/
structure AudioParams where
  bits_per_sample : Int
  rate : Int
deriving DecidableEq, Repr

/-- The `p.lower().startswith("rate=")` test. -/
def rateKeyHit (p : List Char) : Bool :=
  ("rate=".data).isPrefixOf (pyLower p)

/-- The `"L" in p and p.lower().startswith("audio/l")` test: the part
must contain an uppercase `L` and lower-case to an `audio/l` prefix. -/
def audioLHit (p : List Char) : Bool :=
  p.contains 'L' && ("audio/l".data).isPrefixOf (pyLower p)

/-- One iteration of the `for p in parts` loop of
`parse_audio_mime_type`: first the `rate=` check, then the `audio/l`
check, each updating the accumulator only when Python `int` succeeds. -/
def parseMimePart (acc : AudioParams) (p : List Char) : AudioParams :=
  let acc1 :=
    if rateKeyHit p then
      match pyInt? (afterFirst '=' p) with
      | some v => { acc with rate := v }
      | none => acc
    else acc
  if audioLHit p then
    match pyInt? (afterFirst 'L' p) with
    | some v => { acc1 with bits_per_sample := v }
    | none => acc1
  else acc1

/-- The `[p.strip() for p in mime_type.split(";")]` list. -/
def mimeParts (cs : List Char) : List (List Char) :=
  (pySplit ';' cs).map pyStrip

/-- Core of `parse_audio_mime_type` over the character list of the
content-type string. -/
def parseAudioMimeCore (cs : List Char) : AudioParams :=
  if cs = [] then ⟨16, 24000⟩
  else (mimeParts cs).foldl parseMimePart ⟨16, 24000⟩

/-- A nonempty all-decimal-digit character list (the canonical shape of
the `<bits>` and `<hz>` tokens in a well-formed content type). -/
def digitStr (cs : List Char) : Bool :=
  !cs.isEmpty && cs.all isDigitCh

/-- `parse_audio_mime_type` from `nativeSpeechGeneration.py` lines
117-140: defaults 16-bit / 24000 Hz, parameters split on `;` and
stripped, `rate=` parsed case-insensitively, bits taken after the first
uppercase `L` of a part whose lower-casing starts with `audio/l`;
parse failures are suppressed. -/
def parse_audio_mime_type (mime : String) : AudioParams :=
  parseAudioMimeCore mime.data

/-! ## `convert_to_wav` -/

/-- Little-endian bytes of a 16-bit value (for `struct.pack` `H`). -/
def u16le (n : Nat) : List Nat :=
  [n % 256, n / 256 % 256]

/-- Little-endian bytes of a 32-bit value (for `struct.pack` `I`). -/
def u32le (n : Nat) : List Nat :=
  [n % 256, n / 256 % 256, n / 65536 % 256, n / 16777216 % 256]

/-- Range check of `struct.pack` format `H`. -/
def inU16 (n : Int) : Prop :=
  0 ≤ n ∧ n < 65536

/-- Range check of `struct.pack` format `I`. -/
def inU32 (n : Int) : Prop :=
  0 ≤ n ∧ n < 4294967296

instance (n : Int) : Decidable (inU16 n) := by unfold inU16; infer_instance
instance (n : Int) : Decidable (inU32 n) := by unfold inU32; infer_instance

/-- ASCII bytes of `b"RIFF"`. -/
def riffTag : List Nat := [82, 73, 70, 70]
/-- ASCII bytes of `b"WAVE"`. -/
def waveTag : List Nat := [87, 65, 86, 69]
/-- ASCII bytes of `b"fmt "`. -/
def fmtTag : List Nat := [102, 109, 116, 32]
/-- ASCII bytes of `b"data"`. -/
def dataTag : List Nat := [100, 97, 116, 97]

/-- Bits-per-sample actually used by `convert_to_wav`:
`params.get("bits_per_sample", 16) or 16` (Python `or` replaces a zero
value by the default). -/
def effBits (mime : String) : Int :=
  let b := (parse_audio_mime_type mime).bits_per_sample
  if b = 0 then 16 else b

/-- Sample rate actually used by `convert_to_wav`:
`params.get("rate", 24000) or 24000`. -/
def effRate (mime : String) : Int :=
  let r := (parse_audio_mime_type mime).rate
  if r = 0 then 24000 else r

/-- The `"wav" in mime_type.lower()` pass-through test, including the
`mime_type and ...` truthiness guard. -/
def mimeSaysWav (mime : String) : Bool :=
  !mime.data.isEmpty && containsSub (pyLower mime.data) ("wav".data)

/-- `convert_to_wav` from `nativeSpeechGeneration.py` lines 142-167.
If the MIME string is truthy and contains `"wav"` (case-insensitively)
the input bytes are returned unchanged; otherwise a 44-byte PCM header
`struct.pack("<4sI4s4sIHHIIHH4sI", b"RIFF", chunk_size, b"WAVE",
b"fmt ", 16, 1, num_channels, sample_rate, byte_rate, block_align,
bits_per_sample, b"data", data_size)` is prepended.  `struct.pack`
raises when a field is outside its format range; the model returns
`none` exactly in that case.  Python `//` is floor division, hence
`Int.fdiv`. -/
def convert_to_wav (audio_data : List Nat) (mime : String) : Option (List Nat) :=
  if mimeSaysWav mime then
    some audio_data
  else
    let bits_per_sample := effBits mime
    let sample_rate := effRate mime
    let num_channels : Int := 1
    let data_size : Int := (audio_data.length : Int)
    let bytes_per_sample := Int.fdiv bits_per_sample 8
    let block_align := num_channels * bytes_per_sample
    let byte_rate := sample_rate * block_align
    let chunk_size : Int := 36 + data_size
    if inU32 chunk_size ∧ inU16 num_channels ∧ inU32 sample_rate ∧
        inU32 byte_rate ∧ inU16 block_align ∧ inU16 bits_per_sample ∧
        inU32 data_size then
      some (riffTag ++ u32le chunk_size.toNat ++ waveTag ++ fmtTag ++
        u32le 16 ++ u16le 1 ++ u16le num_channels.toNat ++
        u32le sample_rate.toNat ++ u32le byte_rate.toNat ++
        u16le block_align.toNat ++ u16le bits_per_sample.toNat ++
        dataTag ++ u32le data_size.toNat ++ audio_data)
    else none

/-! ## `merge_wav_files`

Input files are what Python's `wave` module reads back from disk: a
parameter tuple and raw frame bytes.  `Wave_read.getparams()` returns the
namedtuple `(nchannels, sampwidth, framerate, nframes, comptype,
compname)` — note that it includes `nframes` — and the source compares
those tuples with `!=`, i.e. field-wise.
-/

/-- The `wave.getparams()` namedtuple. -/
structure WavParams where
  nchannels : Nat
  sampwidth : Nat
  framerate : Nat
  nframes : Nat
  comptype : String
  compname : String
deriving DecidableEq

/-- A WAV file as the merge step sees it: its parameter tuple and the
bytes returned by `readframes(getnframes())`. -/
structure WavFile where
  params : WavParams
  frames : List Nat
deriving DecidableEq

/-- Errors raised by `merge_wav_files` (both are `ValueError` in the
source; the spec names them `EmptyInputError` and
`IncompatibleFormatError`). -/
inductive MergeError where
  | emptyInput
  | incompatibleFormat
deriving DecidableEq

/-- The read-and-validate loop of `merge_wav_files`: collect every
remaining file's frames, raising at the first file whose `getparams()`
tuple differs from the first file's. -/
def collectFrames (params : WavParams) : List WavFile → Except MergeError (List (List Nat))
  | [] => Except.ok []
  | wi :: rest =>
    if wi.params = params then
      match collectFrames params rest with
      | Except.ok fs => Except.ok (wi.frames :: fs)
      | Except.error e => Except.error e
    else Except.error MergeError.incompatibleFormat

/-- `merge_wav_files` from `nativeSpeechGeneration.py` lines 169-194.
Raises on an empty input list; reads the first file's `getparams()` as
the canonical tuple; raises `IncompatibleFormatError` at the first later
file whose tuple differs in any field.  All validation and frame reading
happens before the output file is opened, so on error no output file is
created; on success one output file is written with the canonical
parameters and the concatenation of all frames in input order. -/
def merge_wav_files (input_paths : List WavFile) : Except MergeError WavFile :=
  match input_paths with
  | [] => Except.error MergeError.emptyInput
  | w0 :: rest =>
    match collectFrames w0.params rest with
    | Except.error e => Except.error e
    | Except.ok fs => Except.ok ⟨w0.params, (w0.frames :: fs).flatten⟩

/-! ## `_stream_and_save_audio`

The streaming loop of `NativeSpeechDialog._stream_and_save_audio`
(`nativeSpeechGeneration.py` lines 641-713).  A chunk is modelled by
whether it carries inline audio bytes (the `candidates` /
`content.parts` / `inline_data.data` guards all lead to `continue` when
they fail), its MIME string, the extension `mimetypes.guess_extension`
(standard library, outside this repository) derives for that MIME —
`guessedExt` is that oracle's answer, with `""` standing for both `None`
and a falsy MIME — and the raw bytes.
-/

/-- One streamed chunk as the save loop observes it. -/
structure StreamChunk where
  hasAudio : Bool
  mimeType : String
  guessedExt : String
  data : List Nat
deriving DecidableEq

/-- How a run of `_stream_and_save_audio` can fail: no chunk carried
audio (`NoAudioProducedError`, reported via an error dialog and a `None`
return), or an exception escaped the loop (only `convert_to_wav` can
raise in the model) and was caught by the outer `except`, also
returning `None`. -/
inductive StreamError where
  | noAudioProduced
  | streamException
deriving DecidableEq

instance instDecEqExcept {ε α : Type} [DecidableEq ε] [DecidableEq α] :
    DecidableEq (Except ε α) := fun x y =>
  match x, y with
  | Except.ok a, Except.ok b =>
    if h : a = b then isTrue (by rw [h])
    else isFalse (fun hc => h (Except.ok.inj hc))
  | Except.error a, Except.error b =>
    if h : a = b then isTrue (by rw [h])
    else isFalse (fun hc => h (Except.error.inj hc))
  | Except.ok _, Except.error _ => isFalse (fun hc => Except.noConfusion hc)
  | Except.error _, Except.ok _ => isFalse (fun hc => Except.noConfusion hc)

/-- Everything observable about one run: which segment files were
written, whether `merge_wav_files` was invoked, and the returned path. -/
structure StreamResult where
  saved : List String
  mergeAttempted : Bool
  result : Except StreamError String
deriving DecidableEq

/-- The recognized-container extension test of the save loop:
`not ext or ext.lower() not in (".wav", ".mp3", ".ogg", ".flac")`
selects the raw-PCM conversion branch. -/
def extUnrecognized (ext : String) : Bool :=
  ext.data.isEmpty ||
    !([".wav", ".mp3", ".ogg", ".flac"].map String.data).contains (pyLower ext.data)

/-- The `p.lower().endswith(".wav")` test used by the merge decision. -/
def endsWavLower (p : String) : Bool :=
  (".wav".data).isSuffixOf (pyLower p.data)

/-- The `for chunk in stream` loop: skip chunks without audio payload;
persist an unrecognized-format chunk through `convert_to_wav` under
`<base>_<i>.wav`; persist a recognized-extension chunk as raw bytes
under `<base>_<i><ext>`.  Returns the saved paths in order plus a flag
recording whether `convert_to_wav` raised (which aborts the loop). -/
def processChunks (base : String) : List StreamChunk → Nat → List String →
    List String × Bool
  | [], _, acc => (acc, false)
  | c :: cs, i, acc =>
    if c.hasAudio then
      if extUnrecognized c.guessedExt then
        match convert_to_wav c.data c.mimeType with
        | none => (acc, true)
        | some _ =>
          processChunks base cs (i + 1)
            (acc ++ [base ++ "_" ++ toString i ++ ".wav"])
      else
        processChunks base cs (i + 1)
          (acc ++ [base ++ "_" ++ toString i ++ c.guessedExt])
    else processChunks base cs i acc

/-- The post-loop part of `_stream_and_save_audio`.  An exception during
the loop is caught by the outer `except` and returns `None`; no saved
paths means the no-audio error dialog and `None`; more than one saved
path, all ending in `.wav` (case-insensitively), triggers a merge
attempt — `mergeOk` abstracts whether `merge_wav_files` succeeds on the
saved files — whose failure falls back to the first path; otherwise the
first path is returned. -/
def finalizeStream (base : String) (mergeOk : Bool) :
    List String × Bool → StreamResult
  | (saved, true) => ⟨saved, false, Except.error StreamError.streamException⟩
  | (saved, false) =>
    match saved with
    | [] => ⟨[], false, Except.error StreamError.noAudioProduced⟩
    | p :: _ =>
      if 1 < saved.length ∧ saved.all endsWavLower then
        ⟨saved, true,
          if mergeOk then Except.ok (base ++ "_combined.wav") else Except.ok p⟩
      else ⟨saved, false, Except.ok p⟩

/-- `_stream_and_save_audio` as a function of the chunk sequence: the
save loop followed by the merge-or-first-path decision. -/
def streamAndSave (chunks : List StreamChunk) (base : String) (mergeOk : Bool) :
    StreamResult :=
  finalizeStream base mergeOk (processChunks base chunks 0 [])

/-! ## Forced reinstallation of the `lib` directory

Two code paths replace an existing installed `lib` directory.  The model
records the sequence of file-system operations each attempts and whether
a failure is surfaced to the user.
-/

/-- File-system operations the two reinstall paths can attempt.
`rmtreeBestEffort` is `shutil.rmtree(..., ignore_errors=True)` (never
raises); `rmtreeStrict` is a plain `shutil.rmtree(...)` whose failure
raises. -/
inductive FsOp where
  | rename (src dst : String)
  | rmtreeBestEffort (dir : String)
  | rmtreeStrict (dir : String)
deriving DecidableEq

/-- Outcome of `NativeSpeechSettingsPanel.onReinstall` after the
confirmation: either the success dialog plus `core.restart()`, or the
`except` branch that logs and shows the failure dialog (the spec's
`ReplacementError`). -/
inductive ReinstallOutcome where
  | restarted
  | errorSurfaced
deriving DecidableEq

/-- `NativeSpeechSettingsPanel.onReinstall`
(`NativeSpeechGeneration/__init__.py` lines 317-339), given whether the
lib directory exists, whether `os.rename` succeeds, and the timestamp
string.  If the directory exists it is first renamed to the
`_trash_`-suffixed sibling; on rename success the renamed copy is
deleted best-effort (`ignore_errors=True`); a rename failure propagates
to the `except` branch, which surfaces the error — no further
file-system operation is attempted. -/
def onReinstallReplace (lib : String) (libExists renameOk : Bool) (ts : String) :
    List FsOp × ReinstallOutcome :=
  if libExists then
    let trash := lib ++ "_trash_" ++ ts
    if renameOk then
      ([FsOp.rename lib trash, FsOp.rmtreeBestEffort trash],
        ReinstallOutcome.restarted)
    else ([FsOp.rename lib trash], ReinstallOutcome.errorSurfaced)
  else ([], ReinstallOutcome.restarted)

/-- The replacement prefix of `check_and_install_dependencies.do_work`
(`lib_updater.py` lines 121-128): under `force_reinstall`, if the lib
directory exists it is removed with a direct `shutil.rmtree(lib_dir)`;
the `except` clause only logs a warning, so the function proceeds to the
download regardless of the delete's outcome and never surfaces a
replacement failure. -/
def doWorkReplaceOps (lib : String) (forceReinstall libExists : Bool) : List FsOp :=
  if forceReinstall && libExists then [FsOp.rmtreeStrict lib] else []

/-- Outcome of the same prefix: a delete failure is swallowed
(`log.warning`), never surfaced, for any value of `rmtreeOk`. -/
def doWorkReplaceOutcome (_forceReinstall _libExists _rmtreeOk : Bool) :
    ReinstallOutcome :=
  ReinstallOutcome.restarted

/-! ## `download_and_extract` progress reporting

The progress trace of `lib_updater.download_and_extract` on a successful
run: `10` when the request starts, then after each 8192-byte-or-smaller
read one value `10 + int(dl / total_length * 70)` when the server
reported a truthy length (no per-read callbacks otherwise), then `80` at
extraction start and `100` at completion.  The source computes the
interpolation with Python float division before truncating with `int`;
the model uses the exact integer floor `10 + dl * 70 / total`, which
agrees with the float value at `dl = 0` and `dl = total` and, like it,
is monotone in `dl` and bounded by `80`.
-/

/-- One interpolated progress value: `10 + int(dl / total_length * 70)`. -/
def progressPercent (dl total : Nat) : Nat :=
  10 + dl * 70 / total

/-- Running totals `dl` after each read of the download loop. -/
def prefixTotals (acc : Nat) : List Nat → List Nat
  | [] => []
  | b :: bs => (acc + b) :: prefixTotals (acc + b) bs

/-- The sequence of percentages passed to the progress callback by a
successful `download_and_extract` run, given the server-reported length
(`none` when absent) and the sizes of the successive nonempty reads. -/
def downloadProgressTrace (totalLength : Option Nat) (blocks : List Nat) :
    List Nat :=
  10 ::
    ((match totalLength with
      | some t => if t ≠ 0 then (prefixTotals 0 blocks).map (progressPercent · t) else []
      | none => []) ++ [80, 100])

/-! ## Theorems -/

theorem prefixTotals_mem_bounds :
    ∀ (bs : List Nat) (acc x : Nat), x ∈ prefixTotals acc bs →
      acc ≤ x ∧ x ≤ acc + bs.sum := by
  intro bs
  induction bs with
  | nil => intro acc x hx; simp [prefixTotals] at hx
  | cons b rest ih =>
    intro acc x hx
    rw [prefixTotals] at hx
    rcases List.mem_cons.mp hx with rfl | hx
    · simp only [List.sum_cons]
      omega
    · have := ih (acc + b) x hx
      simp only [List.sum_cons]
      omega

theorem prefixTotals_chain :
    ∀ (bs : List Nat) (acc : Nat), List.Chain' (· ≤ ·) (prefixTotals acc bs) := by
  intro bs
  induction bs with
  | nil => intro acc; simp [prefixTotals]
  | cons b rest ih =>
    intro acc
    rw [prefixTotals]
    refine List.chain'_cons'.mpr ⟨?_, ih (acc + b)⟩
    intro y hy
    exact (prefixTotals_mem_bounds rest (acc + b) y (List.mem_of_mem_head? hy)).1

theorem progressPercent_mono {a b t : Nat} (h : a ≤ b) :
    progressPercent a t ≤ progressPercent b t := by
  unfold progressPercent
  have := Nat.div_le_div_right (c := t) (Nat.mul_le_mul_right 70 h)
  omega

theorem progressPercent_le_80 {dl t : Nat} (ht : t ≠ 0) (h : dl ≤ t) :
    progressPercent dl t ≤ 80 := by
  unfold progressPercent
  have h1 : dl * 70 / t ≤ t * 70 / t :=
    Nat.div_le_div_right (Nat.mul_le_mul_right 70 h)
  have h2 : t * 70 / t = 70 :=
    Nat.mul_div_cancel_left 70 (Nat.pos_of_ne_zero ht)
  omega

/-- The interpolated portion of the trace is a `≤`-chain of values
between 10 and 80 whenever the reads do not exceed the declared total. -/
theorem interpPart_spec (t : Nat) (blocks : List Nat) (ht : t ≠ 0)
    (hsum : blocks.sum ≤ t) :
    List.Chain' (· ≤ ·) ((prefixTotals 0 blocks).map (progressPercent · t)) ∧
    (∀ x ∈ (prefixTotals 0 blocks).map (progressPercent · t),
      10 ≤ x ∧ x ≤ 80) := by
  constructor
  · rw [List.chain'_map]
    exact List.Chain'.imp (fun a b h => progressPercent_mono h)
      (prefixTotals_chain blocks 0)
  · intro x hx
    rcases List.mem_map.mp hx with ⟨d, hd, rfl⟩
    have hb := prefixTotals_mem_bounds blocks 0 d hd
    have hd_le : d ≤ t := by omega
    exact ⟨Nat.le_add_right 10 _, progressPercent_le_80 ht hd_le⟩

/-- Shape of every trace `10 :: (L ++ [80, 100])` whose interpolated part
`L` is a chain of values in `[10, 80]`. -/
theorem traceShape_spec (L : List Nat) (hchain : List.Chain' (· ≤ ·) L)
    (hmem : ∀ x ∈ L, 10 ≤ x ∧ x ≤ 80) :
    List.Chain' (· ≤ ·) (10 :: (L ++ [80, 100])) ∧
    (10 :: (L ++ [80, 100])).head? = some 10 ∧
    (10 :: (L ++ [80, 100])).getLast? = some 100 ∧
    (∀ x ∈ 10 :: (L ++ [80, 100]), x ≤ 100) ∧
    (∀ x ∈ (10 :: (L ++ [80, 100])).dropLast, x ≤ 80) := by
  have hrepr : 10 :: (L ++ [80, 100]) = (10 :: (L ++ [80])) ++ [100] := by
    simp
  refine ⟨?_, rfl, ?_, ?_, ?_⟩
  · refine List.chain'_cons'.mpr ⟨?_, ?_⟩
    · intro y hy
      cases L with
      | nil =>
        simp at hy
        omega
      | cons a l =>
        simp at hy
        subst hy
        exact (hmem a (by simp)).1
    · refine List.chain'_append.mpr ⟨hchain, by simp, ?_⟩
      intro x hx y hy
      have hx' : x ∈ L := List.mem_of_mem_getLast? hx
      simp at hy
      subst hy
      exact (hmem x hx').2
  · rw [hrepr, List.getLast?_concat]
  · intro x hx
    simp at hx
    rcases hx with rfl | hx | rfl | rfl
    · omega
    · exact le_trans (hmem x hx).2 (by omega)
    · omega
    · omega
  · rw [hrepr, List.dropLast_concat]
    intro x hx
    simp at hx
    rcases hx with rfl | hx | rfl
    · omega
    · exact (hmem x hx).2
    · omega

/-- C8 (confirmed): on every successful `download_and_extract` run whose
reads never exceed the server-declared total, the progress values form a
monotonically non-decreasing sequence inside `[0, 100]` that starts at
`10` when the request starts, ends with exactly `100` at completion, and
never exceeds the `80` extraction baseline before the final value. -/
theorem C8_progress_trace (totalLength : Option Nat) (blocks : List Nat)
    (hlen : ∀ t, totalLength = some t → blocks.sum ≤ t) :
    List.Chain' (· ≤ ·) (downloadProgressTrace totalLength blocks) ∧
    (downloadProgressTrace totalLength blocks).head? = some 10 ∧
    (downloadProgressTrace totalLength blocks).getLast? = some 100 ∧
    (∀ x ∈ downloadProgressTrace totalLength blocks, x ≤ 100) ∧
    (∀ x ∈ (downloadProgressTrace totalLength blocks).dropLast, x ≤ 80) := by
  unfold downloadProgressTrace
  cases totalLength with
  | none => exact traceShape_spec [] (by simp) (by simp)
  | some t =>
    by_cases ht : t ≠ 0
    · have hi := interpPart_spec t blocks ht (hlen t rfl)
      simp only [if_pos ht]
      exact traceShape_spec _ hi.1 hi.2
    · simp only [if_neg ht]
      exact traceShape_spec [] (by simp) (by simp)

/-- Witness for C8 at the spec's end-to-end scenario (total length 1000,
reads of at most 8192 bytes). -/
theorem C8_witness :
    List.Chain' (· ≤ ·) (downloadProgressTrace (some 1000) [300, 300, 400]) ∧
    (downloadProgressTrace (some 1000) [300, 300, 400]).head? = some 10 ∧
    (downloadProgressTrace (some 1000) [300, 300, 400]).getLast? = some 100 := by
  have h := C8_progress_trace (some 1000) [300, 300, 400]
    (by intro t ht; cases ht; decide)
  exact ⟨h.1, h.2.1, h.2.2.1⟩

/-- C2 counterexample: the forced-reinstall path of
`check_and_install_dependencies.do_work` (`lib_updater.py`), with an
existing lib directory, performs a direct recursive delete of the live
directory (no prior rename), and a failure of that delete is swallowed
rather than surfaced — refuting the claim that forced reinstallation
never direct-deletes and surfaces replacement failures. -/
theorem C2_counterexample :
    doWorkReplaceOps "lib" true true = [FsOp.rmtreeStrict "lib"] ∧
    doWorkReplaceOutcome true true false = ReinstallOutcome.restarted :=
  ⟨rfl, rfl⟩

/-- C2 (amended): the settings-panel `onReinstall` replacement path
renames the existing directory to a uniquely-suffixed trash sibling and
then best-effort deletes the renamed copy; it never performs a direct
recursive delete of the live directory, and a rename failure is surfaced
with no further file-system operation attempted. -/
theorem C2_amended_onReinstall (lib ts : String) :
    onReinstallReplace lib true true ts =
      ([FsOp.rename lib (lib ++ "_trash_" ++ ts),
        FsOp.rmtreeBestEffort (lib ++ "_trash_" ++ ts)],
        ReinstallOutcome.restarted) ∧
    onReinstallReplace lib true false ts =
      ([FsOp.rename lib (lib ++ "_trash_" ++ ts)],
        ReinstallOutcome.errorSurfaced) ∧
    (∀ (libExists renameOk : Bool) (d : String),
      FsOp.rmtreeStrict d ∉ (onReinstallReplace lib libExists renameOk ts).1) := by
  refine ⟨rfl, rfl, ?_⟩
  intro libExists renameOk d h
  cases libExists <;> cases renameOk <;> simp [onReinstallReplace] at h

/-- Witness for C2 at a concrete directory and timestamp. -/
theorem C2_witness :
    onReinstallReplace "lib" true false "1700000000" =
      ([FsOp.rename "lib" ("lib" ++ "_trash_" ++ "1700000000")],
        ReinstallOutcome.errorSurfaced) ∧
    FsOp.rmtreeStrict "lib" ∉ (onReinstallReplace "lib" true true "1700000000").1 :=
  ⟨(C2_amended_onReinstall "lib" "1700000000").2.1,
    (C2_amended_onReinstall "lib" "1700000000").2.2 true true "lib"⟩

/-- C1 counterexample: a stream of three payload chunks — two declared
`.wav` and one unrecognized-format raw PCM — has all three segments
persisted with a `.wav` extension (the PCM chunk is converted and saved
as `.wav`), so `_stream_and_save_audio` does attempt a merge and, when
the merge succeeds, returns the combined path rather than the first
segment's path. -/
theorem C1_counterexample :
    (streamAndSave
      [⟨true, "audio/wav", ".wav", [0]⟩, ⟨true, "audio/wav", ".wav", [0]⟩,
       ⟨true, "audio/L16;rate=24000", "", [0, 0]⟩] "b" true).mergeAttempted = true ∧
    (streamAndSave
      [⟨true, "audio/wav", ".wav", [0]⟩, ⟨true, "audio/wav", ".wav", [0]⟩,
       ⟨true, "audio/L16;rate=24000", "", [0, 0]⟩] "b" true).result =
      Except.ok "b_combined.wav" := by
  constructor <;> rfl

/-- C1 (amended): whenever a run persists at least two segments whose
paths are not all `.wav` (mixed or non-wav extensions as actually
persisted), no merge is attempted and the first segment's path is
returned. -/
theorem C1_amended_mixed_fallback (chunks : List StreamChunk) (base : String)
    (mergeOk : Bool)
    (hexc : (streamAndSave chunks base mergeOk).result ≠
      Except.error StreamError.streamException)
    (hlen : 2 ≤ (streamAndSave chunks base mergeOk).saved.length)
    (hmix : (streamAndSave chunks base mergeOk).saved.all endsWavLower = false) :
    (streamAndSave chunks base mergeOk).mergeAttempted = false ∧
    (streamAndSave chunks base mergeOk).result =
      Except.ok ((streamAndSave chunks base mergeOk).saved.headD "") := by
  rcases hp : processChunks base chunks 0 [] with ⟨saved, exc⟩
  have hkey : streamAndSave chunks base mergeOk =
      finalizeStream base mergeOk (saved, exc) := by
    unfold streamAndSave
    rw [hp]
  rw [hkey] at hexc hlen hmix ⊢
  cases exc
  · cases saved with
    | nil => simp [finalizeStream] at hlen
    | cons p rest =>
      simp only [finalizeStream] at hmix ⊢
      split at hmix
      · next hc =>
        rw [hc.2] at hmix
        cases hmix
      · next hc =>
        rw [if_neg hc]
        exact ⟨rfl, rfl⟩
  · exact absurd rfl hexc

/-- Witness for C1 at a stream persisting one `.wav` and one `.mp3`
segment. -/
theorem C1_witness :
    (streamAndSave
      [⟨true, "audio/wav", ".wav", [0]⟩, ⟨true, "audio/mpeg", ".mp3", [1]⟩]
      "b" true).mergeAttempted = false ∧
    (streamAndSave
      [⟨true, "audio/wav", ".wav", [0]⟩, ⟨true, "audio/mpeg", ".mp3", [1]⟩]
      "b" true).result =
      Except.ok ((streamAndSave
        [⟨true, "audio/wav", ".wav", [0]⟩, ⟨true, "audio/mpeg", ".mp3", [1]⟩]
        "b" true).saved.headD "") :=
  C1_amended_mixed_fallback
    [⟨true, "audio/wav", ".wav", [0]⟩, ⟨true, "audio/mpeg", ".mp3", [1]⟩]
    "b" true (by decide) (by decide) (by decide)

/-- C7 (confirmed): on stream end with zero persisted segments (and no
stream exception) the run fails with `NoAudioProducedError`; and
whenever a merge was attempted but `merge_wav_files` fails, the merge
error is never propagated — the first segment's path is returned. -/
theorem C7_error_policy (chunks : List StreamChunk) (base : String)
    (mergeOk : Bool) :
    ((streamAndSave chunks base mergeOk).result ≠
        Except.error StreamError.streamException →
      (streamAndSave chunks base mergeOk).saved = [] →
      (streamAndSave chunks base mergeOk).result =
        Except.error StreamError.noAudioProduced) ∧
    ((streamAndSave chunks base false).mergeAttempted = true →
      (streamAndSave chunks base false).result =
        Except.ok ((streamAndSave chunks base false).saved.headD "")) := by
  constructor
  · intro hexc hsaved
    rcases hp : processChunks base chunks 0 [] with ⟨saved, exc⟩
    have hkey : streamAndSave chunks base mergeOk =
        finalizeStream base mergeOk (saved, exc) := by
      unfold streamAndSave
      rw [hp]
    rw [hkey] at hexc hsaved ⊢
    cases exc
    · cases saved with
      | nil => rfl
      | cons p rest =>
        simp only [finalizeStream] at hsaved
        split at hsaved <;> simp at hsaved
    · exact absurd rfl hexc
  · intro hm
    rcases hp : processChunks base chunks 0 [] with ⟨saved, exc⟩
    have hkey : streamAndSave chunks base false =
        finalizeStream base false (saved, exc) := by
      unfold streamAndSave
      rw [hp]
    rw [hkey] at hm ⊢
    cases exc
    · cases saved with
      | nil => exact absurd hm (by simp [finalizeStream])
      | cons p rest =>
        simp only [finalizeStream] at hm ⊢
        split at hm
        · next hc =>
          rw [if_pos hc]
          rfl
        · next hc => exact absurd hm (by simp)
    · exact absurd hm (by simp [finalizeStream])

/-- Witness for C7: an empty stream fails with the no-audio error, and a
two-`.wav`-segment stream whose merge fails returns the first segment's
path. -/
theorem C7_witness :
    (streamAndSave ([] : List StreamChunk) "b" true).result =
      Except.error StreamError.noAudioProduced ∧
    (streamAndSave
      [⟨true, "audio/wav", ".wav", [0]⟩, ⟨true, "audio/wav", ".wav", [1]⟩]
      "b" false).result = Except.ok "b_0.wav" := by
  constructor
  · exact (C7_error_policy [] "b" true).1 (by decide) rfl
  · exact (C7_error_policy
      [⟨true, "audio/wav", ".wav", [0]⟩, ⟨true, "audio/wav", ".wav", [1]⟩]
      "b" true).2 (by decide)

/-- The validation loop errors exactly when some later file's parameter
tuple differs from the canonical one. -/
theorem collectFrames_error (params : WavParams) :
    ∀ rest : List WavFile, (∃ wi ∈ rest, wi.params ≠ params) →
      collectFrames params rest = Except.error MergeError.incompatibleFormat := by
  intro rest
  induction rest with
  | nil =>
    rintro ⟨wi, hmem, -⟩
    cases hmem
  | cons w rs ih =>
    rintro ⟨wi, hmem, hne⟩
    by_cases hw : w.params = params
    · have hrs : ∃ x ∈ rs, x.params ≠ params := by
        rcases List.mem_cons.mp hmem with rfl | hmem'
        · exact absurd hw hne
        · exact ⟨wi, hmem', hne⟩
      simp only [collectFrames]
      rw [if_pos hw, ih hrs]
    · simp only [collectFrames]
      rw [if_neg hw]

/-- C5 (confirmed): `merge_wav_files` fails with `EmptyInputError` on an
empty input list and with `IncompatibleFormatError` whenever any
subsequent file's parameter tuple differs in any field from the first
file's; in both cases the result carries no output file (in the source
all validation precedes opening the output path). -/
theorem C5_merge_failure_cases :
    merge_wav_files [] = Except.error MergeError.emptyInput ∧
    (∀ (w0 : WavFile) (rest : List WavFile),
      (∃ wi ∈ rest, wi.params ≠ w0.params) →
      merge_wav_files (w0 :: rest) =
        Except.error MergeError.incompatibleFormat) := by
  refine ⟨rfl, ?_⟩
  intro w0 rest h
  simp only [merge_wav_files]
  rw [collectFrames_error w0.params rest h]

/-- Witness for C5: merging two one-frame segments that differ only in
sample rate fails with the incompatible-format error. -/
theorem C5_witness :
    merge_wav_files
      [⟨⟨1, 2, 24000, 1, "NONE", "not compressed"⟩, [0, 0]⟩,
       ⟨⟨1, 2, 48000, 1, "NONE", "not compressed"⟩, [1, 1]⟩] =
      Except.error MergeError.incompatibleFormat :=
  C5_merge_failure_cases.2
    ⟨⟨1, 2, 24000, 1, "NONE", "not compressed"⟩, [0, 0]⟩
    [⟨⟨1, 2, 48000, 1, "NONE", "not compressed"⟩, [1, 1]⟩]
    ⟨⟨⟨1, 2, 48000, 1, "NONE", "not compressed"⟩, [1, 1]⟩, by simp, by decide⟩

/-- C6 (code bug): `wave.getparams()` includes the frame count, so two
segments with identical audio format but frame counts 1 and 2 fail the
`wi.getparams() != params` check and `merge_wav_files` raises instead of
concatenating; with equal frame counts the concatenation does happen. -/
theorem C6_code_behavior :
    merge_wav_files
      [⟨⟨1, 2, 24000, 1, "NONE", "not compressed"⟩, [7, 7]⟩,
       ⟨⟨1, 2, 24000, 2, "NONE", "not compressed"⟩, [1, 1, 2, 2]⟩] =
      Except.error MergeError.incompatibleFormat ∧
    merge_wav_files
      [⟨⟨1, 2, 24000, 2, "NONE", "not compressed"⟩, [7, 7, 8, 8]⟩,
       ⟨⟨1, 2, 24000, 2, "NONE", "not compressed"⟩, [1, 1, 2, 2]⟩] =
      Except.ok
        ⟨⟨1, 2, 24000, 2, "NONE", "not compressed"⟩,
          [7, 7, 8, 8, 1, 1, 2, 2]⟩ := by
  constructor <;> rfl

/-- C9 (confirmed): for every content-type string containing `wav` in
any letter case, `convert_to_wav` returns the input bytes unchanged. -/
theorem C9_wav_passthrough (mime : String) (audio_data : List Nat)
    (h : containsSub (pyLower mime.data) ("wav".data) = true) :
    convert_to_wav audio_data mime = some audio_data := by
  have hne : mime.data.isEmpty = false := by
    cases hd : mime.data with
    | nil =>
      rw [hd] at h
      exact absurd h (by decide)
    | cons a l => rfl
  have hw : mimeSaysWav mime = true := by
    unfold mimeSaysWav
    rw [hne, h]
    rfl
  simp [convert_to_wav, hw]

/-- Witness for C9 at an upper-case `WAV` MIME string. -/
theorem C9_witness :
    containsSub (pyLower ("audio/WAV".data)) ("wav".data) = true ∧
    convert_to_wav [1, 2, 3] "audio/WAV" = some [1, 2, 3] :=
  ⟨by decide, C9_wav_passthrough "audio/WAV" [1, 2, 3] (by decide)⟩

/-- When the MIME string does not say `wav` and the `struct.pack` range
checks pass, `convert_to_wav` returns exactly the packed header followed
by the input bytes, and every packed field is in range. -/
theorem convert_nonwav_spec (audio_data : List Nat) (mime : String)
    (hw : mimeSaysWav mime = false)
    (hs : (convert_to_wav audio_data mime).isSome = true) :
    inU32 (36 + (audio_data.length : Int)) ∧
    inU32 (effRate mime) ∧
    inU32 (effRate mime * (1 * Int.fdiv (effBits mime) 8)) ∧
    inU16 (1 * Int.fdiv (effBits mime) 8) ∧
    inU16 (effBits mime) ∧
    inU32 ((audio_data.length : Int)) ∧
    (convert_to_wav audio_data mime).getD [] =
      riffTag ++ u32le (36 + (audio_data.length : Int)).toNat ++ waveTag ++
      fmtTag ++ u32le 16 ++ u16le 1 ++ u16le (1 : Int).toNat ++
      u32le (effRate mime).toNat ++
      u32le (effRate mime * (1 * Int.fdiv (effBits mime) 8)).toNat ++
      u16le (1 * Int.fdiv (effBits mime) 8).toNat ++
      u16le (effBits mime).toNat ++
      dataTag ++ u32le ((audio_data.length : Int)).toNat ++ audio_data := by
  unfold convert_to_wav at hs ⊢
  rw [hw] at hs ⊢
  simp only [Bool.false_eq_true, if_false] at hs ⊢
  split at hs
  · next hc =>
    obtain ⟨c1, c2, c3, c4, c5, c6, c7⟩ := hc
    refine ⟨c1, c3, c4, c5, c6, c7, ?_⟩
    rw [if_pos ⟨c1, c2, c3, c4, c5, c6, c7⟩]
    rfl
  · cases hs

/-- C4 counterexample: the content-type string `rate=-1` does not
contain `wav`, yet `convert_to_wav` returns no byte string at all (the
parsed rate `-1` makes the byte-rate field negative and `struct.pack`
raises), refuting the claim that every non-wav content type yields an
`N + 44`-byte result. -/
theorem C4_counterexample :
    containsSub (pyLower ("rate=-1".data)) ("wav".data) = false ∧
    convert_to_wav [] "rate=-1" = none := by
  exact ⟨by decide, by decide⟩

set_option maxHeartbeats 1600000 in
/-- C4 (amended): for every buffer and non-wav content type on which the
`struct.pack` range checks pass (in particular all canonical
digit-valued parameters), the result is exactly `N + 44` bytes — the
44-byte little-endian header with the documented field layout (chunk
size `N + 36` at offset 4, format tag, channel count 1, sample rate,
byte rate `= sampleRate * blockAlign`, block align
`= channels * bitsPerSample / 8`, bits per sample, data length `N`)
followed by the input bytes unmodified. -/
theorem C4_amended (audio_data : List Nat) (mime : String)
    (hw : mimeSaysWav mime = false)
    (hs : (convert_to_wav audio_data mime).isSome = true) :
    ((convert_to_wav audio_data mime).getD []).length =
      audio_data.length + 44 ∧
    ((convert_to_wav audio_data mime).getD []).take 4 = riffTag ∧
    (((convert_to_wav audio_data mime).getD []).drop 4).take 4 =
      u32le (audio_data.length + 36) ∧
    (((convert_to_wav audio_data mime).getD []).drop 8).take 4 = waveTag ∧
    (((convert_to_wav audio_data mime).getD []).drop 12).take 4 = fmtTag ∧
    (((convert_to_wav audio_data mime).getD []).drop 16).take 4 = u32le 16 ∧
    (((convert_to_wav audio_data mime).getD []).drop 20).take 2 = u16le 1 ∧
    (((convert_to_wav audio_data mime).getD []).drop 22).take 2 = u16le 1 ∧
    (((convert_to_wav audio_data mime).getD []).drop 24).take 4 =
      u32le (effRate mime).toNat ∧
    (((convert_to_wav audio_data mime).getD []).drop 28).take 4 =
      u32le (effRate mime * Int.fdiv (effBits mime) 8).toNat ∧
    (((convert_to_wav audio_data mime).getD []).drop 32).take 2 =
      u16le (Int.fdiv (effBits mime) 8).toNat ∧
    (((convert_to_wav audio_data mime).getD []).drop 34).take 2 =
      u16le (effBits mime).toNat ∧
    (((convert_to_wav audio_data mime).getD []).drop 36).take 4 = dataTag ∧
    (((convert_to_wav audio_data mime).getD []).drop 40).take 4 =
      u32le audio_data.length ∧
    ((convert_to_wav audio_data mime).getD []).drop 44 = audio_data := by
  obtain ⟨h1, h2, h3, h4, h5, h6, heq⟩ := convert_nonwav_spec audio_data mime hw hs
  have e1 : (36 + (audio_data.length : Int)).toNat = audio_data.length + 36 := by
    omega
  have e2 : ((audio_data.length : Int)).toNat = audio_data.length := by omega
  have e3 : 1 * Int.fdiv (effBits mime) 8 = Int.fdiv (effBits mime) 8 :=
    one_mul _
  rw [heq, e1, e2, e3]
  refine ⟨?_, rfl, rfl, rfl, rfl, rfl, rfl, rfl, rfl, rfl, rfl, rfl, rfl, rfl, rfl⟩
  simp [riffTag, waveTag, fmtTag, dataTag, u32le, u16le]

/-- Witness for C4 at a canonical raw-PCM content type. -/
theorem C4_witness :
    mimeSaysWav "audio/L16;rate=24000" = false ∧
    ((convert_to_wav [1, 2, 3] "audio/L16;rate=24000").getD []).length =
      3 + 44 ∧
    (((convert_to_wav [1, 2, 3] "audio/L16;rate=24000").getD []).drop 4).take 4 =
      u32le (3 + 36) :=
  ⟨by decide,
    (C4_amended [1, 2, 3] "audio/L16;rate=24000" (by decide) (by decide)).1,
    (C4_amended [1, 2, 3] "audio/L16;rate=24000" (by decide) (by decide)).2.2.1⟩

/-- C10 counterexample: `audio/L4;rate=0` is in the claim's scope (its
parsed sample rate is zero), the defaults are substituted for the zero
rate, yet the synthesized header encodes a zero byte rate (offset 28)
and zero block align (offset 32) because `4 // 8 = 0` — refuting the
claim that the header never encodes a zero byte rate or block align. -/
theorem C10_counterexample :
    (parse_audio_mime_type "audio/L4;rate=0").rate = 0 ∧
    (convert_to_wav [] "audio/L4;rate=0").isSome = true ∧
    (((convert_to_wav [] "audio/L4;rate=0").getD []).drop 28).take 4 =
      [0, 0, 0, 0] ∧
    (((convert_to_wav [] "audio/L4;rate=0").getD []).drop 32).take 2 =
      [0, 0] := by
  exact ⟨by decide, by decide, by decide, by decide⟩

/-- C10 (amended): a zero parsed sample rate or bits-per-sample is
replaced by the default (24000 Hz / 16-bit) before the header is built,
so a synthesized header never encodes a zero sample rate; a zero byte
rate or block align can still occur when the parsed bits-per-sample is a
nonzero value below 8. -/
theorem C10_amended (audio_data : List Nat) (mime : String)
    (hw : mimeSaysWav mime = false)
    (hs : (convert_to_wav audio_data mime).isSome = true) :
    ((parse_audio_mime_type mime).rate = 0 → effRate mime = 24000) ∧
    ((parse_audio_mime_type mime).bits_per_sample = 0 → effBits mime = 16) ∧
    (((convert_to_wav audio_data mime).getD []).drop 24).take 4 ≠
      [0, 0, 0, 0] := by
  obtain ⟨h1, h2, h3, h4, h5, h6, heq⟩ := convert_nonwav_spec audio_data mime hw hs
  refine ⟨?_, ?_, ?_⟩
  · intro h
    simp [effRate, h]
  · intro h
    simp [effBits, h]
  · have hne : effRate mime ≠ 0 := by
      unfold effRate
      dsimp only
      split
      · decide
      · next hr => exact hr
    unfold inU32 at h2
    rw [heq]
    intro hzero
    have hu : (((riffTag ++ u32le (36 + (audio_data.length : Int)).toNat ++
        waveTag ++ fmtTag ++ u32le 16 ++ u16le 1 ++ u16le (1 : Int).toNat ++
        u32le (effRate mime).toNat ++
        u32le (effRate mime * (1 * Int.fdiv (effBits mime) 8)).toNat ++
        u16le (1 * Int.fdiv (effBits mime) 8).toNat ++
        u16le (effBits mime).toNat ++
        dataTag ++ u32le ((audio_data.length : Int)).toNat ++
        audio_data).drop 24).take 4) = u32le (effRate mime).toNat := rfl
    rw [hu] at hzero
    simp only [u32le, List.cons.injEq, and_true] at hzero
    omega

/-- Witness for C10 at a content type whose parsed rate is zero. -/
theorem C10_witness :
    mimeSaysWav "audio/L16;rate=0" = false ∧
    ((parse_audio_mime_type "audio/L16;rate=0").rate = 0 →
      effRate "audio/L16;rate=0" = 24000) ∧
    (((convert_to_wav [] "audio/L16;rate=0").getD []).drop 24).take 4 ≠
      [0, 0, 0, 0] :=
  ⟨by decide,
    (C10_amended [] "audio/L16;rate=0" (by decide) (by decide)).1,
    (C10_amended [] "audio/L16;rate=0" (by decide) (by decide)).2.2⟩

theorem pySplitAux_not_mem (sep : Char) :
    ∀ xs acc : List Char, sep ∉ xs →
      pySplitAux sep xs acc = [acc.reverse ++ xs] := by
  intro xs
  induction xs with
  | nil =>
    intro acc _
    simp [pySplitAux]
  | cons c rest ih =>
    intro acc h
    have hc : ¬c = sep := fun hh => h (hh ▸ List.mem_cons_self c rest)
    simp only [pySplitAux]
    rw [if_neg hc, ih (c :: acc) (fun hm => h (List.mem_cons_of_mem c hm))]
    simp

theorem pySplitAux_sep (sep : Char) :
    ∀ xs ys acc : List Char, sep ∉ xs →
      pySplitAux sep (xs ++ sep :: ys) acc =
        (acc.reverse ++ xs) :: pySplitAux sep ys [] := by
  intro xs
  induction xs with
  | nil =>
    intro ys acc _
    simp [pySplitAux]
  | cons c rest ih =>
    intro ys acc h
    have hc : ¬c = sep := fun hh => h (hh ▸ List.mem_cons_self c rest)
    simp only [List.cons_append, pySplitAux, List.append_eq]
    rw [if_neg hc, ih ys (c :: acc) (fun hm => h (List.mem_cons_of_mem c hm))]
    simp

theorem pySplit_single (sep : Char) (xs : List Char) (h : sep ∉ xs) :
    pySplit sep xs = [xs] := by
  unfold pySplit
  rw [pySplitAux_not_mem sep xs [] h]
  simp

theorem pySplit_two (sep : Char) (xs ys : List Char) (hx : sep ∉ xs)
    (hy : sep ∉ ys) : pySplit sep (xs ++ sep :: ys) = [xs, ys] := by
  unfold pySplit
  rw [pySplitAux_sep sep xs ys [] hx, pySplitAux_not_mem sep ys [] hy]
  simp

theorem dropWhile_of_none (p : Char → Bool) (l : List Char)
    (h : ∀ c ∈ l, p c = false) : l.dropWhile p = l := by
  cases l with
  | nil => rfl
  | cons c t => simp [List.dropWhile_cons, h c (List.mem_cons_self c t)]

theorem pyStrip_eq_self (l : List Char) (h : ∀ c ∈ l, isPySpace c = false) :
    pyStrip l = l := by
  unfold pyStrip
  rw [dropWhile_of_none _ l h,
    dropWhile_of_none _ l.reverse (fun c hc => h c (List.mem_reverse.mp hc))]
  exact List.reverse_reverse l

theorem digit_no_space {c : Char} (h : isDigitCh c = true) :
    isPySpace c = false := by
  unfold isDigitCh at h
  unfold isPySpace
  simp only [Bool.and_eq_true, decide_eq_true_eq] at h
  simp only [Bool.or_eq_false_iff, decide_eq_false_iff_not]
  omega

theorem digit_lower {c : Char} (h : isDigitCh c = true) : pyLowerChar c = c := by
  unfold isDigitCh at h
  unfold pyLowerChar
  simp only [Bool.and_eq_true, decide_eq_true_eq] at h
  rw [if_neg (by omega)]

theorem digit_ne {c : Char} (h : isDigitCh c = true) {d : Char}
    (hd : 57 < d.toNat ∨ d.toNat < 48) : c ≠ d := by
  intro hcd
  subst hcd
  unfold isDigitCh at h
  simp only [Bool.and_eq_true, decide_eq_true_eq] at h
  omega

theorem sep_not_mem_digits {d : Char} (hd : 57 < d.toNat ∨ d.toNat < 48)
    {cs : List Char} (h : ∀ x ∈ cs, isDigitCh x = true) : d ∉ cs := by
  intro hm
  have := h d hm
  unfold isDigitCh at this
  simp only [Bool.and_eq_true, decide_eq_true_eq] at this
  omega

theorem not_mem_append_of {c : Char} {xs ys : List Char} (hx : c ∉ xs)
    (hy : c ∉ ys) : c ∉ xs ++ ys := by
  intro h
  rcases List.mem_append.mp h with h' | h'
  · exact hx h'
  · exact hy h'

theorem numTail_digits : ∀ cs : List Char,
    (∀ c ∈ cs, isDigitCh c = true) → numTail cs = true := by
  intro cs
  induction cs with
  | nil => intro _; rfl
  | cons c t ih =>
    intro h
    have hc : ¬c = '_' := digit_ne (h c (List.mem_cons_self c t)) (by decide)
    unfold numTail
    rw [if_neg hc, h c (List.mem_cons_self c t),
      ih (fun x hx => h x (List.mem_cons_of_mem c hx))]
    rfl

theorem numValid_digits (cs : List Char) (hne : cs ≠ [])
    (h : ∀ c ∈ cs, isDigitCh c = true) : numValid cs = true := by
  cases cs with
  | nil => exact absurd rfl hne
  | cons c t =>
    simp only [numValid]
    rw [h c (List.mem_cons_self c t),
      numTail_digits t (fun x hx => h x (List.mem_cons_of_mem c hx))]
    rfl

theorem pyInt_digits (cs : List Char) (hne : cs ≠ [])
    (h : ∀ c ∈ cs, isDigitCh c = true) :
    pyInt? cs = some (digitsValue cs : Int) := by
  unfold pyInt?
  rw [pyStrip_eq_self cs (fun c hc => digit_no_space (h c hc))]
  cases cs with
  | nil => exact absurd rfl hne
  | cons c t =>
    have hplus : ¬c = '+' := digit_ne (h c (List.mem_cons_self c t)) (by decide)
    have hminus : ¬c = '-' := digit_ne (h c (List.mem_cons_self c t)) (by decide)
    dsimp only
    rw [if_neg hplus, if_neg hminus, if_pos (numValid_digits (c :: t) hne h)]

theorem pyLower_append (xs ys : List Char) :
    pyLower (xs ++ ys) = pyLower xs ++ pyLower ys :=
  List.map_append pyLowerChar xs ys

theorem pyLower_digits (cs : List Char) (h : ∀ c ∈ cs, isDigitCh c = true) :
    pyLower cs = cs := by
  induction cs with
  | nil => rfl
  | cons c t ih =>
    unfold pyLower at ih ⊢
    simp only [List.map_cons]
    rw [digit_lower (h c (List.mem_cons_self c t)),
      ih (fun x hx => h x (List.mem_cons_of_mem c hx))]

theorem isPrefixOf_append_self (xs ys : List Char) :
    xs.isPrefixOf (xs ++ ys) = true := by
  induction xs with
  | nil => simp [List.isPrefixOf]
  | cons c t ih => simp [List.isPrefixOf, ih]

theorem isPrefixOf_false_of_head (a b : Char) (as bs : List Char)
    (h : ¬a = b) : (a :: as).isPrefixOf (b :: bs) = false := by
  simp [List.isPrefixOf, h]

theorem afterFirst_marker (c : Char) :
    ∀ pre rs : List Char, c ∉ pre → afterFirst c (pre ++ c :: rs) = rs := by
  intro pre
  induction pre with
  | nil =>
    intro rs _
    simp [afterFirst]
  | cons a t ih =>
    intro rs h
    have ha : ¬a = c := fun hh => h (hh ▸ List.mem_cons_self a t)
    simp only [List.cons_append, afterFirst, List.append_eq]
    rw [if_neg ha, ih rs (fun hm => h (List.mem_cons_of_mem a hm))]

theorem contains_append_eq (c : Char) :
    ∀ xs ys : List Char, (xs ++ ys).contains c = (xs.contains c || ys.contains c) := by
  intro xs
  induction xs with
  | nil => intro ys; simp
  | cons a t ih =>
    intro ys
    simp only [List.cons_append, List.contains_cons, ih, Bool.or_assoc]

theorem contains_false_of_digits (c : Char) (hc : 57 < c.toNat ∨ c.toNat < 48)
    (cs : List Char) (h : ∀ x ∈ cs, isDigitCh x = true) :
    cs.contains c = false := by
  induction cs with
  | nil => rfl
  | cons a t ih =>
    simp only [List.contains_cons, Bool.or_eq_false_iff]
    constructor
    · have hne : a ≠ c := digit_ne (h a (List.mem_cons_self a t)) hc
      simp [beq_eq_false_iff_ne]
      exact fun hh => hne hh.symm
    · exact ih (fun x hx => h x (List.mem_cons_of_mem a hx))

/-- A part whose lower-casing is exactly `rate=` followed by a nonempty
digit token sets the rate to that token's value and leaves the bits
untouched. -/
theorem parseMimePart_rate_gen (acc : AudioParams) (pre rs : List Char)
    (hlow : pyLower pre = "rate=".data)
    (hafter : afterFirst '=' (pre ++ rs) = rs)
    (hnoL : pre.contains 'L' = false)
    (hne : rs ≠ []) (hd : ∀ c ∈ rs, isDigitCh c = true) :
    parseMimePart acc (pre ++ rs) = { acc with rate := (digitsValue rs : Int) } := by
  have h1 : rateKeyHit (pre ++ rs) = true := by
    unfold rateKeyHit
    rw [pyLower_append, hlow]
    exact isPrefixOf_append_self _ _
  have h2 : audioLHit (pre ++ rs) = false := by
    unfold audioLHit
    rw [contains_append_eq, hnoL,
      contains_false_of_digits 'L' (by decide) rs hd]
    rfl
  simp [parseMimePart, h1, h2, hafter, pyInt_digits rs hne hd]

/-- A part of the shape `audio/L<digits>` (with an uppercase `L` and a
lower-casing that starts with `audio/l`) sets the bits to the digit
token's value and leaves the rate untouched. -/
theorem parseMimePart_audioL_gen (acc : AudioParams) (pre bs : List Char)
    (hlow : pyLower pre = "audio/l".data)
    (hafter : afterFirst 'L' (pre ++ bs) = bs)
    (hhasL : pre.contains 'L' = true)
    (hnorate : rateKeyHit (pre ++ bs) = false)
    (hne : bs ≠ []) (hd : ∀ c ∈ bs, isDigitCh c = true) :
    parseMimePart acc (pre ++ bs) =
      { acc with bits_per_sample := (digitsValue bs : Int) } := by
  have h1 : audioLHit (pre ++ bs) = true := by
    unfold audioLHit
    rw [contains_append_eq, hhasL, pyLower_append, hlow,
      isPrefixOf_append_self]
    rfl
  simp [parseMimePart, hnorate, h1, hafter, pyInt_digits bs hne hd]

/-- A part whose `rate=` check misses (or whose value fails to parse)
leaves the rate unchanged. -/
theorem parseMimePart_rate_miss (acc : AudioParams) (p : List Char)
    (h : rateKeyHit p = false ∨ pyInt? (afterFirst '=' p) = none) :
    (parseMimePart acc p).rate = acc.rate := by
  unfold parseMimePart
  have hacc1 : (if rateKeyHit p then
      match pyInt? (afterFirst '=' p) with
      | some v => { acc with rate := v }
      | none => acc
    else acc) = acc := by
    rcases h with h | h
    · simp [h]
    · simp [h]
  dsimp only
  rw [hacc1]
  cases hL : audioLHit p
  · simp
  · cases hI : pyInt? (afterFirst 'L' p) <;> simp [hI]

/-- A part whose `audio/l` check misses (or whose value fails to parse)
leaves the bits unchanged. -/
theorem parseMimePart_bits_miss (acc : AudioParams) (p : List Char)
    (h : audioLHit p = false ∨ pyInt? (afterFirst 'L' p) = none) :
    (parseMimePart acc p).bits_per_sample = acc.bits_per_sample := by
  unfold parseMimePart
  have hb : ∀ acc1 : AudioParams,
      (if rateKeyHit p then
        match pyInt? (afterFirst '=' p) with
        | some v => { acc1 with rate := v }
        | none => acc1
      else acc1).bits_per_sample = acc1.bits_per_sample := by
    intro acc1
    cases hR : rateKeyHit p
    · simp
    · cases hI : pyInt? (afterFirst '=' p) <;> simp [hI]
  rcases h with h | h
  · simp only [h, Bool.false_eq_true, if_false]
    exact hb acc
  · simp only [h]
    cases hL : audioLHit p
    · simp only [Bool.false_eq_true, if_false]
      exact hb acc
    · simp only [if_true]
      exact hb acc

theorem foldl_rate_miss :
    ∀ (parts : List (List Char)) (acc : AudioParams),
      (∀ p ∈ parts, rateKeyHit p = false ∨ pyInt? (afterFirst '=' p) = none) →
      (parts.foldl parseMimePart acc).rate = acc.rate := by
  intro parts
  induction parts with
  | nil => intro acc _; rfl
  | cons p rest ih =>
    intro acc h
    rw [List.foldl_cons,
      ih (parseMimePart acc p) (fun q hq => h q (List.mem_cons_of_mem p hq)),
      parseMimePart_rate_miss acc p (h p (List.mem_cons_self p rest))]

theorem foldl_bits_miss :
    ∀ (parts : List (List Char)) (acc : AudioParams),
      (∀ p ∈ parts, audioLHit p = false ∨ pyInt? (afterFirst 'L' p) = none) →
      (parts.foldl parseMimePart acc).bits_per_sample = acc.bits_per_sample := by
  intro parts
  induction parts with
  | nil => intro acc _; rfl
  | cons p rest ih =>
    intro acc h
    rw [List.foldl_cons,
      ih (parseMimePart acc p) (fun q hq => h q (List.mem_cons_of_mem p hq)),
      parseMimePart_bits_miss acc p (h p (List.mem_cons_self p rest))]

theorem no_space_append {xs ys : List Char}
    (hx : ∀ c ∈ xs, isPySpace c = false) (hy : ∀ c ∈ ys, isPySpace c = false) :
    ∀ c ∈ xs ++ ys, isPySpace c = false := by
  intro c hc
  rcases List.mem_append.mp hc with h | h
  · exact hx c h
  · exact hy c h

/-- A content type with exactly one `;` and no whitespace parses as the
second part folded over the first. -/
theorem parseCore_two_parts (p1 p2 : List Char)
    (hs1 : ';' ∉ p1) (hs2 : ';' ∉ p2)
    (hw1 : ∀ c ∈ p1, isPySpace c = false)
    (hw2 : ∀ c ∈ p2, isPySpace c = false) :
    parseAudioMimeCore (p1 ++ ';' :: p2) =
      parseMimePart (parseMimePart ⟨16, 24000⟩ p1) p2 := by
  unfold parseAudioMimeCore
  rw [if_neg (by simp)]
  unfold mimeParts
  rw [pySplit_two ';' p1 p2 hs1 hs2]
  simp only [List.map_cons, List.map_nil]
  rw [pyStrip_eq_self p1 hw1, pyStrip_eq_self p2 hw2]
  simp only [List.foldl_cons, List.foldl_nil]

/-- A content type with no `;` and no whitespace parses as a single
part. -/
theorem parseCore_one_part (p1 : List Char) (hs1 : ';' ∉ p1)
    (hw1 : ∀ c ∈ p1, isPySpace c = false) (hne : p1 ≠ []) :
    parseAudioMimeCore p1 = parseMimePart ⟨16, 24000⟩ p1 := by
  unfold parseAudioMimeCore
  rw [if_neg hne]
  unfold mimeParts
  rw [pySplit_single ';' p1 hs1]
  simp only [List.map_cons, List.map_nil]
  rw [pyStrip_eq_self p1 hw1]
  simp only [List.foldl_cons, List.foldl_nil]

/-- C3 counterexample: `audio/l24;rate=8000` is of the claimed
`audio/L<bits>;rate=<hz>` form up to letter case, but the lowercase `l`
fails the `"L" in p` membership test, so the bits-per-sample stays at
the default 16 instead of the claimed 24 (the rate is still parsed). -/
theorem C3_counterexample :
    parse_audio_mime_type "audio/l24;rate=8000" =
      ⟨16, 8000⟩ ∧
    (parse_audio_mime_type "audio/l24;rate=8000").bits_per_sample ≠ 24 := by
  exact ⟨by decide, by decide⟩

/-- C3 (amended): parsing never fails and an empty string yields the
defaults; a missing or non-numeric `rate=` parameter keeps 24000; a
missing or non-numeric bits parameter keeps 16; for content types of
the form `audio/L<bits>;rate=<hz>` — parameters in either order, the
`rate=` key case-insensitive, the media token containing an uppercase
`L` (a lowercase `l` keeps the default) — both values are extracted. -/
theorem C3_amended_parse :
    parse_audio_mime_type "" = ⟨16, 24000⟩ ∧
    (∀ cs : List Char,
      (∀ p ∈ mimeParts cs,
        rateKeyHit p = false ∨ pyInt? (afterFirst '=' p) = none) →
      (parseAudioMimeCore cs).rate = 24000) ∧
    (∀ cs : List Char,
      (∀ p ∈ mimeParts cs,
        audioLHit p = false ∨ pyInt? (afterFirst 'L' p) = none) →
      (parseAudioMimeCore cs).bits_per_sample = 16) ∧
    (∀ bs rs : List Char, digitStr bs = true → digitStr rs = true →
      parseAudioMimeCore
          (("audio/L".data ++ bs) ++ ';' :: ("rate=".data ++ rs)) =
        ⟨(digitsValue bs : Int), (digitsValue rs : Int)⟩ ∧
      parseAudioMimeCore
          (("rate=".data ++ rs) ++ ';' :: ("audio/L".data ++ bs)) =
        ⟨(digitsValue bs : Int), (digitsValue rs : Int)⟩ ∧
      parseAudioMimeCore
          (("AUDIO/L".data ++ bs) ++ ';' :: ("RATE=".data ++ rs)) =
        ⟨(digitsValue bs : Int), (digitsValue rs : Int)⟩ ∧
      parseAudioMimeCore ("audio/L".data ++ bs) =
        ⟨(digitsValue bs : Int), 24000⟩) := by
  refine ⟨rfl, ?_, ?_, ?_⟩
  · intro cs h
    unfold parseAudioMimeCore
    split
    · rfl
    · exact foldl_rate_miss (mimeParts cs) ⟨16, 24000⟩ h
  · intro cs h
    unfold parseAudioMimeCore
    split
    · rfl
    · exact foldl_bits_miss (mimeParts cs) ⟨16, 24000⟩ h
  · intro bs rs hbs hrs
    have hbs' : bs ≠ [] ∧ ∀ c ∈ bs, isDigitCh c = true := by
      unfold digitStr at hbs
      simp only [Bool.and_eq_true, Bool.not_eq_true', List.isEmpty_eq_false,
        List.all_eq_true] at hbs
      exact ⟨hbs.1, hbs.2⟩
    have hrs' : rs ≠ [] ∧ ∀ c ∈ rs, isDigitCh c = true := by
      unfold digitStr at hrs
      simp only [Bool.and_eq_true, Bool.not_eq_true', List.isEmpty_eq_false,
        List.all_eq_true] at hrs
      exact ⟨hrs.1, hrs.2⟩
    have hbsemi : ';' ∉ bs := sep_not_mem_digits (by decide) hbs'.2
    have hrsemi : ';' ∉ rs := sep_not_mem_digits (by decide) hrs'.2
    have hbspace : ∀ c ∈ bs, isPySpace c = false :=
      fun c hc => digit_no_space (hbs'.2 c hc)
    have hrspace : ∀ c ∈ rs, isPySpace c = false :=
      fun c hc => digit_no_space (hrs'.2 c hc)
    have haudioL : ∀ acc : AudioParams,
        parseMimePart acc ("audio/L".data ++ bs) =
          { acc with bits_per_sample := (digitsValue bs : Int) } := by
      intro acc
      refine parseMimePart_audioL_gen acc ("audio/L".data) bs (by decide)
        (afterFirst_marker 'L' ("audio/".data) bs (by decide)) (by decide)
        ?_ hbs'.1 hbs'.2
      unfold rateKeyHit
      rw [pyLower_append,
        show pyLower ("audio/L".data) = "audio/l".data from by decide]
      exact isPrefixOf_false_of_head 'r' 'a' ("ate=".data)
        ("udio/l".data ++ pyLower bs) (by decide)
    have haudioLU : ∀ acc : AudioParams,
        parseMimePart acc ("AUDIO/L".data ++ bs) =
          { acc with bits_per_sample := (digitsValue bs : Int) } := by
      intro acc
      refine parseMimePart_audioL_gen acc ("AUDIO/L".data) bs (by decide)
        (afterFirst_marker 'L' ("AUDIO/".data) bs (by decide)) (by decide)
        ?_ hbs'.1 hbs'.2
      unfold rateKeyHit
      rw [pyLower_append,
        show pyLower ("AUDIO/L".data) = "audio/l".data from by decide]
      exact isPrefixOf_false_of_head 'r' 'a' ("ate=".data)
        ("udio/l".data ++ pyLower bs) (by decide)
    have hrate : ∀ acc : AudioParams,
        parseMimePart acc ("rate=".data ++ rs) =
          { acc with rate := (digitsValue rs : Int) } := by
      intro acc
      exact parseMimePart_rate_gen acc ("rate=".data) rs (by decide)
        (afterFirst_marker '=' ("rate".data) rs (by decide)) (by decide)
        hrs'.1 hrs'.2
    have hrateU : ∀ acc : AudioParams,
        parseMimePart acc ("RATE=".data ++ rs) =
          { acc with rate := (digitsValue rs : Int) } := by
      intro acc
      exact parseMimePart_rate_gen acc ("RATE=".data) rs (by decide)
        (afterFirst_marker '=' ("RATE".data) rs (by decide)) (by decide)
        hrs'.1 hrs'.2
    refine ⟨?_, ?_, ?_, ?_⟩
    · rw [parseCore_two_parts ("audio/L".data ++ bs) ("rate=".data ++ rs)
        (not_mem_append_of (by decide) hbsemi)
        (not_mem_append_of (by decide) hrsemi)
        (no_space_append (by decide) hbspace)
        (no_space_append (by decide) hrspace)]
      rw [haudioL, hrate]
    · rw [parseCore_two_parts ("rate=".data ++ rs) ("audio/L".data ++ bs)
        (not_mem_append_of (by decide) hrsemi)
        (not_mem_append_of (by decide) hbsemi)
        (no_space_append (by decide) hrspace)
        (no_space_append (by decide) hbspace)]
      rw [hrate, haudioL]
    · rw [parseCore_two_parts ("AUDIO/L".data ++ bs) ("RATE=".data ++ rs)
        (not_mem_append_of (by decide) hbsemi)
        (not_mem_append_of (by decide) hrsemi)
        (no_space_append (by decide) hbspace)
        (no_space_append (by decide) hrspace)]
      rw [haudioLU, hrateU]
    · rw [parseCore_one_part ("audio/L".data ++ bs)
        (not_mem_append_of (by decide) hbsemi)
        (no_space_append (by decide) hbspace)
        (by simp)]
      rw [haudioL]

/-- Witness for C3 at the canonical content type `audio/L16;rate=24000`
(split as its two parts). -/
theorem C3_witness :
    digitStr ("16".data) = true ∧ digitStr ("24000".data) = true ∧
    parseAudioMimeCore
        (("audio/L".data ++ "16".data) ++ ';' :: ("rate=".data ++ "24000".data)) =
      ⟨16, 24000⟩ := by
  refine ⟨by decide, by decide, ?_⟩
  exact (C3_amended_parse.2.2.2 ("16".data) ("24000".data)
    (by decide) (by decide)).1

end NSG
